import Mathlib

/-!
Shallow embedding of the RunPod ComfyUI worker job handler (`src/handler.py`).

The embedding models the handler's data as ordered association lists (Python
dicts preserve insertion order), Python numbers as `Int`/`Rat`, and fallible
Python operations (`KeyError`, file I/O failures, raised exceptions) as
`Option`/`Except` results.  Ambient effects that claims need to observe
(which template files were read, what payload was submitted, how many poll
requests and status log lines the poll loop issued) are collected in a ghost
`Trace` record alongside the handler's return value.
-/

set_option autoImplicit false

namespace ComfyWorker

/-- JSON-ish scalar values that occur in workflow node input slots. -/
inductive JVal where
  | s (v : String)
  | i (v : Int)
  | q (v : Rat)
  | b (v : Bool)
  deriving DecidableEq

/-- Python `str(...)` / f-string rendering of a `JVal`. -/
def pyStr : JVal → String
  | .s v => v
  | .i v => toString v
  | .q v => toString v
  | .b v => if v then "True" else "False"

/-- Lookup in an ordered string-keyed dict (first matching key). -/
def dictGet : List (String × JVal) → String → Option JVal
  | [], _ => none
  | (k, v) :: rest, key => if k = key then some v else dictGet rest key

/-- Python dict assignment `d[k] = v`: overwrite in place, else append at the end. -/
def dictSet : List (String × JVal) → String → JVal → List (String × JVal)
  | [], k, v => [(k, v)]
  | (k', v') :: rest, k, v =>
      if k' = k then (k, v) :: rest else (k', v') :: dictSet rest k v

/-- A workflow node: a `class_type` tag (possibly absent) and an `inputs`
dict (possibly absent; `none` models a node dict without an `inputs` key). -/
structure PNode where
  class_type : Option String
  inputs : Option (List (String × JVal))
  deriving DecidableEq

/-- A workflow payload: an ordered dict from node id to node. -/
abbrev Payload := List (String × PNode)

/-- Lookup of a node by id in a payload. -/
def payloadNode : Payload → String → Option PNode
  | [], _ => none
  | (k, n) :: rest, key => if k = key then some n else payloadNode rest key

/-- Read slot `slot` of node `nk` in payload `w`, if both exist. -/
def getSlot (w : Payload) (nk slot : String) : Option JVal :=
  match payloadNode w nk with
  | some n =>
      match n.inputs with
      | some ins => dictGet ins slot
      | none => none
  | none => none

/-- Semantic job parameters of the named workflows (the validated input's
`payload` object for non-custom workflows). -/
structure Params where
  seed : Int
  steps : Int
  cfg_scale : Rat
  sampler_name : String
  scheduler : String
  denoise : Rat
  ckpt_name : String
  batch_size : Int
  width : Int
  height : Int
  prompt : String
  negative_prompt : String
  deriving DecidableEq

/-- Python `workflow[nk]["inputs"][slot] = v`: `KeyError` (modelled as `none`)
when node `nk` is absent or has no `inputs` dict; the slot itself is
created or overwritten. -/
def setSlot : Payload → String → String → JVal → Option Payload
  | [], _, _, _ => none
  | (k, n) :: rest, nk, slot, v =>
      if k = nk then
        match n.inputs with
        | some ins => some ((k, { n with inputs := some (dictSet ins slot v) }) :: rest)
        | none => none
      else
        match setSlot rest nk slot v with
        | some rest' => some ((k, n) :: rest')
        | none => none

/-- Applies a sequence of slot assignments in order, failing on the first
`KeyError`.  This models a block of consecutive Python statements
`workflow[nk]["inputs"][slot] = v`. -/
def applySlots : List (String × String × JVal) → Payload → Option Payload
  | [], w => some w
  | (nk, slot, v) :: rest, w =>
      match setSlot w nk slot v with
      | some w' => applySlots rest w'
      | none => none

/-- The txt2img parameter-mapping table (handler.py lines 175-184), in
source statement order. -/
def txt2imgTable (p : Params) : List (String × String × JVal) :=
  [("3", "seed", .i p.seed),
   ("3", "steps", .i p.steps),
   ("3", "cfg", .q p.cfg_scale),
   ("3", "sampler_name", .s p.sampler_name),
   ("4", "ckpt_name", .s p.ckpt_name),
   ("5", "batch_size", .i p.batch_size),
   ("5", "width", .i p.width),
   ("5", "height", .i p.height),
   ("6", "text", .s p.prompt),
   ("7", "text", .s p.negative_prompt)]

/-- Embeds `get_txt2img_payload` (handler.py lines 174-185). -/
def get_txt2img_payload (w : Payload) (p : Params) : Option Payload :=
  applySlots (txt2imgTable p) w

/-- The img2img parameter-mapping table (handler.py lines 189-205), in
source statement order. -/
def img2imgTable (p : Params) : List (String × String × JVal) :=
  [("13", "seed", .i p.seed),
   ("13", "steps", .i p.steps),
   ("13", "cfg", .q p.cfg_scale),
   ("13", "sampler_name", .s p.sampler_name),
   ("13", "scheduler", .s p.scheduler),
   ("13", "denoise", .q p.denoise),
   ("1", "ckpt_name", .s p.ckpt_name),
   ("2", "width", .i p.width),
   ("2", "height", .i p.height),
   ("2", "target_width", .i p.width),
   ("2", "target_height", .i p.height),
   ("4", "width", .i p.width),
   ("4", "height", .i p.height),
   ("4", "target_width", .i p.width),
   ("4", "target_height", .i p.height),
   ("6", "text", .s p.prompt),
   ("7", "text", .s p.negative_prompt)]

/-- Embeds `get_img2img_payload` (handler.py lines 188-206).  Note: this
function is defined in the source but is never invoked by
`get_workflow_payload`. -/
def get_img2img_payload (w : Payload) (p : Params) : Option Payload :=
  applySlots (img2imgTable p) w

/-- The caller-supplied job payload: a semantic-parameter object for the
named workflows, or a pre-built node graph for the custom workflow. -/
inductive JobPayload where
  | params (p : Params)
  | graph (g : Payload)
  deriving DecidableEq

/-- Path of a workflow template file on disk. -/
def workflowPath (name : String) : String := "/workflows/" ++ name ++ ".json"

/-- Models Python `traceback.format_exc()` for a caught exception
`excName(msg)`: a traceback header followed by the exception line. -/
def formatExc (excName msg : String) : String :=
  "Traceback (most recent call last):\n  File handler.py\n" ++ excName ++ ": " ++ msg ++ "\n"

/-- Embeds `get_workflow_payload` (handler.py lines 209-216).  `templates`
models the `/workflows/` directory (`none` = file missing, raising on
`open`).  The second component of the result is the ghost list of template
files actually read.  Note the source applies a substitution table only for
`txt2img`; every other named workflow's template is returned unchanged. -/
def get_workflow_payload (templates : String → Option Payload) (name : String)
    (jp : JobPayload) : Except String (Payload × List String) :=
  match templates name with
  | none => .error (formatExc "FileNotFoundError" (workflowPath name))
  | some t =>
      if name = "txt2img" then
        match jp with
        | .params p =>
            match get_txt2img_payload t p with
            | some w => .ok (w, [workflowPath name])
            | none => .error (formatExc "KeyError" "workflow node")
        | .graph _ => .error (formatExc "KeyError" "seed")
      else .ok (t, [workflowPath name])

/-- Node class types treated as text-output nodes (handler.py line 292). -/
def textOutputTypes : List String :=
  ["SaveText|pysssss", "SaveText", "TextFileOutput", "WriteTextFile"]

/-- Whether a `class_type` tag is one of the recognized text-output types. -/
def isTextOutputClass : Option String → Bool
  | some c => textOutputTypes.contains c
  | none => false

/-- One node's mutation in `create_unique_filename_prefix` (handler.py lines
284-302), given the token `str(uuid.uuid4())` would produce.  Returns the
updated node and whether a token was consumed; `none` models the `KeyError`
raised when an output node has no `inputs` dict. -/
def injectNode (tok : String) (n : PNode) : Option (PNode × Bool) :=
  if n.class_type = some "SaveImage" then
    match n.inputs with
    | none => none
    | some ins => some ({ n with inputs := some (dictSet ins "filename_prefix" (.s tok)) }, true)
  else if isTextOutputClass n.class_type then
    match n.inputs with
    | none => none
    | some ins =>
        match dictGet ins "filename_prefix" with
        | some _ =>
            some ({ n with inputs := some (dictSet ins "filename_prefix" (.s tok)) }, true)
        | none =>
            match dictGet ins "file" with
            | some v =>
                some ({ n with inputs := some (dictSet ins "file" (.s (tok ++ "_" ++ pyStr v))) },
                  true)
            | none =>
                match dictGet ins "filename" with
                | some v =>
                    some ({ n with
                      inputs := some (dictSet ins "filename" (.s (tok ++ "_" ++ pyStr v))) }, true)
                | none => some (n, false)
  else some (n, false)

/-- Walk of the payload in `create_unique_filename_prefix`, threading the
index of the next fresh token. -/
def injectGo (tokens : Nat → String) : Nat → Payload → Option (Payload × Nat)
  | i, [] => some ([], i)
  | i, (k, n) :: rest =>
      match injectNode (tokens i) n with
      | none => none
      | some (n', used) =>
          match injectGo tokens (if used then i + 1 else i) rest with
          | none => none
          | some (rest', i') => some ((k, n') :: rest', i')

/-- Embeds `create_unique_filename_prefix` (handler.py lines 278-302).
`tokens i` models the `i`-th value of `str(uuid.uuid4())` drawn during the
call (each matching node draws its own fresh token). -/
def injectUniqueFilenameTokens (tokens : Nat → String) (p : Payload) : Option Payload :=
  match injectGo tokens 0 p with
  | some (p', _) => some p'
  | none => none

/-- Python `s.split('_')[0]`: the characters before the first underscore. -/
def splitUnderscoreHead (s : String) : String :=
  ⟨s.data.takeWhile (fun c => c != '_')⟩

/-- Python `'_' in s`. -/
def strHasUnderscore (s : String) : Bool :=
  s.data.any (fun c => c == '_')

/-- Embeds the unique-token extraction loop in `handler` (handler.py lines
746-763): walk the (already injected) submission payload in order and take
the first node that yields a token, probing `filename_prefix`, then a
string-valued `file` field containing an underscore, then a string-valued
`filename` field containing an underscore.  The `filename_prefix` branch
returns the raw slot value (the source does not check it is a string). -/
def extractUniqueToken : Payload → Option JVal
  | [] => none
  | (_, n) :: rest =>
      match n.inputs with
      | none => extractUniqueToken rest
      | some ins =>
          match dictGet ins "filename_prefix" with
          | some v => some v
          | none =>
              match dictGet ins "file" with
              | some (.s f) =>
                  if strHasUnderscore f then some (.s (splitUnderscoreHead f))
                  else extractUniqueToken rest
              | _ =>
                  match dictGet ins "filename" with
                  | some (.s f) =>
                      if strHasUnderscore f then some (.s (splitUnderscoreHead f))
                      else extractUniqueToken rest
                  | _ => extractUniqueToken rest

/-- A candidate file in one of the scanned directories, as the text-file
scanner can observe it.  `textRead` is the content delivered by a strict
UTF-8 text read (`none` = that read raises); `binRead` is the content
delivered by the binary-read-and-replace fallback (`none` = that open/read
raises); `removeOk` tells whether `os.remove` on this file succeeds (a
failed remove raises, which the scanner catches per file). -/
structure TxtFile where
  name : String
  textRead : Option String
  binRead : Option String
  removeOk : Bool
  deriving DecidableEq

/-- One `{filename, content}` entry of the scanner's result list. -/
structure TextEntryOut where
  filename : String
  content : String
  deriving DecidableEq

/-- The text-like extension allow-list (handler.py line 833). -/
def text_extensions : List String :=
  [".txt", ".json", ".xml", ".csv", ".log", ".md", ".yaml", ".yml"]

/-- Python `s.lower()` (ASCII case folding, as the extension list needs). -/
def pyLower (s : String) : String :=
  ⟨s.data.map Char.toLower⟩

/-- Python `s.endswith(p)`. -/
def pyEndsWith (s p : String) : Bool :=
  p.data.isSuffixOf s.data

/-- Python `any(filename.lower().endswith(ext) for ext in text_extensions)`. -/
def isTextName (name : String) : Bool :=
  text_extensions.any (fun ext => pyEndsWith (pyLower name) ext)

/-- Python truthiness of a `JVal`. -/
def pyTruthy : JVal → Bool
  | .s v => v ≠ ""
  | .i v => v ≠ 0
  | .q v => v ≠ 0
  | .b v => v

/-- Python `s.startswith(p)`. -/
def pyStartsWith (s p : String) : Bool :=
  p.data.isPrefixOf s.data

/-- The scanner's per-file filter `if unique_prefix and not
filename.startswith(unique_prefix): continue` (handler.py line 851).  The
claims only exercise string (or absent) tokens; a truthy non-string token
would raise `TypeError` in the source, which no claim relies on, and is
modelled as not matching. -/
def tokenAccepts (up : Option JVal) (name : String) : Bool :=
  match up with
  | none => true
  | some v => !(pyTruthy v) || (match v with | .s p => pyStartsWith name p | _ => false)

/-- Processing of one candidate text file (handler.py lines 854-875): try a
strict text read, append, then delete; on any failure fall back to a binary
read, append, then delete; the fallback's failure is caught and logged.
Returns the `{filename, content}` entries appended and whether the file was
removed from disk. -/
def processTextFile (f : TxtFile) : List TextEntryOut × Bool :=
  match f.textRead with
  | some c =>
      if f.removeOk then ([⟨f.name, c⟩], true)
      else
        match f.binRead with
        | some c2 => ([⟨f.name, c⟩, ⟨f.name, c2⟩], false)
        | none => ([⟨f.name, c⟩], false)
  | none =>
      match f.binRead with
      | some c2 => if f.removeOk then ([⟨f.name, c2⟩], true) else ([⟨f.name, c2⟩], false)
      | none => ([], false)

/-- Whether the scanner processes a candidate file at all: text-like
extension and unique-token filter. -/
def shouldProcess (up : Option JVal) (f : TxtFile) : Bool :=
  isTextName f.name && tokenAccepts up f.name

/-- The entries a single candidate file contributes to the scan result. -/
def textEntriesOf (up : Option JVal) (f : TxtFile) : List TextEntryOut :=
  if shouldProcess up f then (processTextFile f).1 else []

/-- Scan of one directory listing (the inner loop of `scan_for_text_files`):
returns the harvested entries and the files still on disk afterwards. -/
def scanDirFiles (up : Option JVal) : List TxtFile → List TextEntryOut × List TxtFile
  | [] => ([], [])
  | f :: rest =>
      let (es, fs) := scanDirFiles up rest
      if shouldProcess up f then
        ((processTextFile f).1 ++ es, if (processTextFile f).2 then fs else f :: fs)
      else (es, f :: fs)

/-- Embeds `scan_for_text_files` (handler.py lines 825-879) over the fixed
directory list; a `none` directory models `os.path.exists(scan_dir)` being
false.  Returns the harvested entries and the post-scan directory states. -/
def scan_for_text_files (up : Option JVal) :
    List (Option (List TxtFile)) → List TextEntryOut × List (Option (List TxtFile))
  | [] => ([], [])
  | d :: ds =>
      let (es, ds') := scan_for_text_files up ds
      match d with
      | none => (es, none :: ds')
      | some files =>
          let (e1, fs') := scanDirFiles up files
          (e1 ++ es, some fs' :: ds')

/-- One reported image descriptor, as read with `.get` (absent keys give
`none`). -/
structure ImgDesc where
  filename : Option String
  dtype : Option String
  deriving DecidableEq

/-- One node's entry in the history record's `outputs` mapping. -/
structure OutVal where
  images : Option (List ImgDesc)
  deriving DecidableEq

/-- Embeds `get_output_files` (handler.py lines 256-274): collect every
reported image descriptor, in order.  (The source wraps each descriptor as
a dict with a constant tag, which is elided here.) -/
def get_output_files (outputs : List (String × OutVal)) : List ImgDesc :=
  (outputs.map (fun kv => kv.2.images.getD [])).flatten

/-- Python `str(x)` for an optional string (f-string of `None` is "None"). -/
def pyStrOpt : Option String → String
  | some s => s
  | none => "None"

/-- The volume mount path constant (handler.py line 22). -/
def VOLUME_MOUNT_PATH : String := "/runpod-volume"

/-- Path of a reported output-class image. -/
def outImagePath (d : ImgDesc) : String :=
  VOLUME_MOUNT_PATH ++ "/ComfyUI/output/" ++ pyStrOpt d.filename

/-- Path of a reported temp-class image in the service temp directory. -/
def tempImagePath (d : ImgDesc) : String :=
  VOLUME_MOUNT_PATH ++ "/ComfyUI/temp/" ++ pyStrOpt d.filename

/-- Fallback path of a reported temp-class image in `/tmp`. -/
def tmpImagePath (d : ImgDesc) : String :=
  "/tmp/" ++ pyStrOpt d.filename

/-- An image file on disk as the image-harvesting loop can observe it:
`convert` is the base64 JPEG produced by the guarded convert-and-encode
block (`none` = that block raises and is caught); `removeRaises` tells
whether `os.remove` on this path raises. -/
structure ImgFile where
  path : String
  convert : Option String
  removeRaises : Bool
  deriving DecidableEq

/-- The filesystem visible to the image-harvesting loop. -/
abbrev ImgFS := List ImgFile

/-- Lookup of a path on the image filesystem. -/
def fsFind (fs : ImgFS) (p : String) : Option ImgFile :=
  fs.find? (fun f => f.path == p)

/-- Python `os.path.exists` on the image filesystem. -/
def fsHas (fs : ImgFS) (p : String) : Bool :=
  fs.any (fun f => f.path == p)

/-- Deletion of a path from the image filesystem. -/
def fsRemove (fs : ImgFS) (p : String) : ImgFS :=
  fs.filter (fun f => !(f.path == p))

/-- Embeds the image-processing loop of the handler's success branch
(handler.py lines 680-742).  Output-class images are converted inside a
`try` (failure logged) and then deleted by an unguarded `os.remove`, whose
failure propagates (`Except.error`) and aborts the whole job; temp-class
images are deleted inside a `try` (failure logged, file stays), looking
first in the service temp directory and then in `/tmp`. -/
def processOutputImages : List ImgDesc → ImgFS → Except Unit (List String × ImgFS)
  | [], fs => .ok ([], fs)
  | d :: ds, fs =>
      if d.dtype = some "output" then
        match fsFind fs (outImagePath d) with
        | some f =>
            if f.removeRaises then .error ()
            else
              match processOutputImages ds (fsRemove fs (outImagePath d)) with
              | .error e => .error e
              | .ok (is, fs') =>
                  match f.convert with
                  | some b => .ok (b :: is, fs')
                  | none => .ok (is, fs')
        | none => processOutputImages ds fs
      else if d.dtype = some "temp" then
        match fsFind fs (tempImagePath d) with
        | some f =>
            processOutputImages ds (if f.removeRaises then fs else fsRemove fs (tempImagePath d))
        | none =>
            match fsFind fs (tmpImagePath d) with
            | some f =>
                processOutputImages ds (if f.removeRaises then fs else fsRemove fs (tmpImagePath d))
            | none => processOutputImages ds fs
      else processOutputImages ds fs

/-- Ghost provenance of `processOutputImages`: the paths of the files whose
converted data is appended to the image list, in order.  Mirrors the same
recursion (its value matters only on runs where `processOutputImages`
returns `Except.ok`). -/
def imgConvertedPaths : List ImgDesc → ImgFS → List String
  | [], _ => []
  | d :: ds, fs =>
      if d.dtype = some "output" then
        match fsFind fs (outImagePath d) with
        | some f =>
            if f.removeRaises then []
            else
              (if f.convert.isSome then [outImagePath d] else []) ++
                imgConvertedPaths ds (fsRemove fs (outImagePath d))
        | none => imgConvertedPaths ds fs
      else if d.dtype = some "temp" then
        match fsFind fs (tempImagePath d) with
        | some f =>
            imgConvertedPaths ds (if f.removeRaises then fs else fsRemove fs (tempImagePath d))
        | none =>
            match fsFind fs (tmpImagePath d) with
            | some f =>
                imgConvertedPaths ds (if f.removeRaises then fs else fsRemove fs (tmpImagePath d))
            | none => imgConvertedPaths ds fs
      else imgConvertedPaths ds fs

/-- The disk threshold constant (handler.py line 26): 500 MB in bytes. -/
def DISK_MIN_FREE_BYTES : Nat := 500 * 1024 * 1024

/-- Stand-in for Python f-string `:.2f` rendering of a number.  The claims
rely only on the fixed message text surrounding the number, never on the
digits themselves. -/
def pyFloat2f (q : Rat) : String := toString q

/-- The low-memory pre-flight rejection message (handler.py line 609). -/
def memGuardMsg (m : Rat) : String :=
  "Insufficient available container memory: " ++ pyFloat2f m ++
    " GB available (minimum 0.5 GB required)"

/-- The low-disk pre-flight rejection message (handler.py line 613). -/
def diskGuardMsg (d : Nat) : String :=
  "Insufficient free container disk space: " ++ pyFloat2f ((d : Rat) / ((1024 : Rat) ^ 3)) ++
    " GB available (minimum 0.5 GB required)"

/-- The pre-flight resource guard (handler.py lines 605-613): memory is
checked first; a metric that is `none` (absent from the snapshot) is not a
blocker.  Returns the message of the exception raised, if any. -/
def guardError (mem : Option Rat) (disk : Option Nat) : Option String :=
  let diskCheck : Option String :=
    match disk with
    | some d => if d < DISK_MIN_FREE_BYTES then some (diskGuardMsg d) else none
    | none => none
  match mem with
  | some m => if m < 1 / 2 then some (memGuardMsg m) else diskCheck
  | none => diskCheck

/-- The value of an `execution_error` (or other) status message, as read
with `in`-tests: only the two probed keys are modelled. -/
structure ExecErrVal where
  node_type : Option String
  exception_message : Option String
  deriving DecidableEq

/-- The generic failure message (handler.py line 798). -/
def jobFailedMsg (pid : String) : String :=
  "Job did not process successfully for prompt_id: " ++ pid

/-- The failure-classification loop of the handler's non-success branch
(handler.py lines 787-801): walk the status messages in order; the first
`execution_error` entry decides — a `RuntimeError` combining node type and
exception message when both keys are present, else the generic
`RuntimeError`.  Returns the raised message, or `none` when the loop falls
through without raising. -/
def classifyFailureMsg (pid : String) : List (String × ExecErrVal) → Option String
  | [] => none
  | (key, value) :: rest =>
      if key = "execution_error" then
        match value.node_type, value.exception_message with
        | some nt, some em => some (nt ++ ": " ++ em)
        | _, _ => some (jobFailedMsg pid)
      else classifyFailureMsg pid rest

/-- A handler response object; `none` fields model keys absent from the
returned dict. -/
structure Resp where
  images : Option (List String) := none
  text_files : Option (List TextEntryOut) := none
  error : Option String := none
  output : Option String := none
  refresh_worker : Option Bool := none
  deriving DecidableEq

/-- What the handler returns from the non-success poll branch: the raised
`RuntimeError` becomes the top-level uniform error response; when the
message loop falls through without raising, the handler function ends and
returns Python `None` (modelled as `none`). -/
def nonSuccessResult (pid : String) (msgs : List (String × ExecErrVal)) : Option Resp :=
  match classifyFailureMsg pid msgs with
  | some m => some { error := some (formatExc "RuntimeError" m), refresh_worker := some true }
  | none => none

/-- The success-response assembly (handler.py lines 767-783): always the
image list; the text-file list only when non-empty; `refresh_worker := true`
only when post-job available memory is known and below 1.0 GB. -/
def successResponse (images : List String) (text_files : List TextEntryOut)
    (memAvail : Option Rat) : Resp :=
  let r : Resp := { images := some images }
  let r := if text_files.isEmpty then r else { r with text_files := some text_files }
  match memAvail with
  | some m => if m < 1 then { r with refresh_worker := some true } else r
  | none => r

/-- The terminal record a non-empty history response carries under the
prompt id. -/
structure FinalRecord where
  status_str : String
  completed : Bool
  messages : List (String × ExecErrVal)
  outputs : List (String × OutVal)
  deriving DecidableEq

/-- One scripted response of `GET /history` for the prompt: an HTTP status
and the parsed body (`none` models the empty dict). -/
structure HistEntry where
  status : Nat
  body : Option FinalRecord
  deriving DecidableEq

/-- Embeds the polling loop (handler.py lines 652-666) over a scripted
response sequence: log a status line when `retries == 0 or retries % 15 ==
0`, issue the GET, and break on the first response with HTTP status 200 and
a non-empty body.  Returns the embedded record, the number of GET requests
issued, and the number of status log lines emitted; `none` means the script
was exhausted (the source would keep polling forever). -/
def pollRun : List HistEntry → Nat → Option (FinalRecord × Nat × Nat)
  | [], _ => none
  | e :: rest, retries =>
      let l := if retries = 0 ∨ retries % 15 = 0 then 1 else 0
      match e.body, e.status == 200 with
      | some rec, true => some (rec, 1, l)
      | some _, false =>
          match pollRun rest (retries + 1) with
          | none => none
          | some (r, q, c) => some (r, q + 1, l + c)
      | none, _ =>
          match pollRun rest (retries + 1) with
          | none => none
          | some (r, q, c) => some (r, q + 1, l + c)

/-- The environment of one handler invocation: resource snapshots, the
validator's verdict, the `/workflows/` directory, the stream of fresh
`uuid4` tokens, the generation service's scripted behavior, and the
filesystem state the harvester will see. -/
structure Env where
  mem0 : Option Rat
  disk0 : Option Nat
  validation : Except (List String) (String × JobPayload)
  templates : String → Option Payload
  tokens : Nat → String
  queueStatus : Nat
  queueBody : String
  promptId : String
  history : List HistEntry
  imgFS : ImgFS
  textDirs : List (Option (List TxtFile))
  mem1 : Option Rat

/-- Ghost observation record of one handler invocation. -/
structure Trace where
  guardBlocked : Bool := false
  filesRead : List String := []
  submittedPayload : Option Payload := none
  pollRequests : Nat := 0
  pollLogs : Nat := 0
  deriving DecidableEq

/-- A handler invocation's outcome: a returned value (`Option Resp`, with
`none` for Python `None`), or divergence in the unbounded poll loop. -/
inductive HOut where
  | ret (r : Option Resp)
  | diverge
  deriving DecidableEq

/-- Workflow-name aliasing (handler.py lines 626-627): the literal
`default` is rewritten to `txt2img`. -/
def aliasWorkflow (wf0 : String) : String :=
  if wf0 = "default" then "txt2img" else wf0

/-- The tail of the handler's success/failure branch after polling has
returned a terminal record (handler.py lines 668-801). -/
def handlerFinish (env : Env) (pl' : Payload) (tr : Trace) (rec : FinalRecord) : HOut × Trace :=
  if rec.status_str = "success" ∧ rec.completed = true then
    match processOutputImages (get_output_files rec.outputs) env.imgFS with
    | .error _ =>
        let r : Resp :=
          { error := some (formatExc "OSError" "remove"), refresh_worker := some true }
        (.ret (some r), tr)
    | .ok (images, _) =>
        let tfs := (scan_for_text_files (extractUniqueToken pl') env.textDirs).1
        (.ret (some (successResponse images tfs env.mem1)), tr)
  else (.ret (nonSuccessResult env.promptId rec.messages), tr)

/-- Submission and polling (handler.py lines 641-666, 803-815): POST the
injected payload, then on HTTP 200 poll the scripted history to a terminal
record; a non-200 submission yields the transport error response. -/
def handlerSubmit (env : Env) (pl' : Payload) (fr : List String) : HOut × Trace :=
  let tr : Trace := { filesRead := fr, submittedPayload := some pl' }
  if env.queueStatus = 200 then
    match pollRun env.history 0 with
    | none => (.diverge, tr)
    | some (rec, reqs, logs) =>
        handlerFinish env pl' { tr with pollRequests := reqs, pollLogs := logs } rec
  else
    let r : Resp :=
      { error := some ("HTTP status code: " ++ toString env.queueStatus),
        output := some env.queueBody }
    (.ret (some r), tr)

/-- Template build and unique-token injection (handler.py lines 631-646).
The custom workflow with a semantic-parameter payload raises
`AttributeError` inside the injection walk (parameter values are not node
dicts); it is modelled at the build step with the same net response. -/
def handlerRun (env : Env) (wfName : String) (jp : JobPayload) : HOut × Trace :=
  let built : Except String (Payload × List String) :=
    if wfName = "custom" then
      match jp with
      | .graph g => .ok (g, [])
      | .params _ => .error (formatExc "AttributeError" "int object has no attribute get")
    else get_workflow_payload env.templates wfName jp
  match built with
  | .error msg => (.ret (some { error := some msg, refresh_worker := some true }), {})
  | .ok (pl, fr) =>
      match injectUniqueFilenameTokens env.tokens pl with
      | none =>
          let r : Resp :=
            { error := some (formatExc "KeyError" "inputs"), refresh_worker := some true }
          (.ret (some r), { filesRead := fr })
      | some pl' => handlerSubmit env pl' fr

/-- Embeds `handler` (handler.py lines 596-822): pre-flight resource guard,
validation, workflow aliasing and template build, unique-token injection,
submission, polling, harvest, response assembly, with exceptions caught at
the single top-level boundary (error text plus `refresh_worker := true`). -/
def handler (env : Env) : HOut × Trace :=
  match guardError env.mem0 env.disk0 with
  | some msg =>
      (.ret (some { error := some (formatExc "Exception" msg), refresh_worker := some true }),
        { guardBlocked := true })
  | none =>
  match env.validation with
  | .error errs => (.ret (some { error := some (String.intercalate "\n" errs) }), {})
  | .ok (wf0, jp) => handlerRun env (aliasWorkflow wf0) jp

/-- Substring containment: `pat` occurs contiguously inside `s`. -/
def strContains (s pat : String) : Prop := ∃ a b, s = a ++ pat ++ b

/-- Number of status log lines the poll loop emits over attempts
`r, r + 1, …, r + n` (a log fires exactly when the attempt counter is a
multiple of 15, the first attempt `0` included). -/
def countM : Nat → Nat → Nat
  | r, 0 => if r % 15 = 0 then 1 else 0
  | r, n + 1 => (if r % 15 = 0 then 1 else 0) + countM (r + 1) n

/-- A concrete img2img template: the node/slot coordinates enumerated by the
source's img2img parameter-mapping table, holding template default values. -/
def imgTemplate : Payload :=
  [("13", { class_type := some "SamplerCustom",
            inputs := some [("seed", .i 0), ("steps", .i 20), ("cfg", .q 8),
                            ("sampler_name", .s "euler"), ("scheduler", .s "normal"),
                            ("denoise", .q 1)] }),
   ("1", { class_type := some "CheckpointLoaderSimple",
           inputs := some [("ckpt_name", .s "base.safetensors")] }),
   ("2", { class_type := some "CLIPTextEncodeSDXL",
           inputs := some [("width", .i 512), ("height", .i 512),
                           ("target_width", .i 512), ("target_height", .i 512)] }),
   ("4", { class_type := some "CLIPTextEncodeSDXL",
           inputs := some [("width", .i 512), ("height", .i 512),
                           ("target_width", .i 512), ("target_height", .i 512)] }),
   ("6", { class_type := some "CLIPTextEncode", inputs := some [("text", .s "")] }),
   ("7", { class_type := some "CLIPTextEncode", inputs := some [("text", .s "")] })]

/-- A concrete semantic-parameter object differing from every default in
`imgTemplate`. -/
def p0 : Params :=
  { seed := 42, steps := 30, cfg_scale := 7, sampler_name := "dpmpp_2m",
    scheduler := "karras", denoise := 1 / 2, ckpt_name := "other.safetensors",
    batch_size := 1, width := 768, height := 768, prompt := "cat",
    negative_prompt := "dog" }

/-- A `/workflows/` directory containing only the img2img template. -/
def imgTemplates : String → Option Payload :=
  fun n => if n = "img2img" then some imgTemplate else none

/-- The terminal record of the C2 failing input: a terminal non-success
status whose messages list is empty. -/
def recC2 : FinalRecord :=
  { status_str := "error", completed := false, messages := [], outputs := [] }

/-- A handler environment that drives execution to the non-success poll
branch with an empty messages list. -/
def envC2 : Env :=
  { mem0 := none, disk0 := none,
    validation := .ok ("custom", .graph []),
    templates := fun _ => none,
    tokens := fun _ => "tok",
    queueStatus := 200, queueBody := "", promptId := "p1",
    history := [⟨200, some recC2⟩],
    imgFS := [], textDirs := [], mem1 := none }

/-- A concrete environment whose memory snapshot is below the 0.5 GB
threshold. -/
def envC5 : Env :=
  { mem0 := some (1 / 4), disk0 := none,
    validation := .error [], templates := fun _ => none, tokens := fun _ => "",
    queueStatus := 0, queueBody := "", promptId := "", history := [],
    imgFS := [], textDirs := [], mem1 := none }

/-- A concrete custom-workflow environment with one image-output node. -/
def envC8 : Env :=
  { mem0 := none, disk0 := none,
    validation := .ok ("custom",
      .graph [("9", { class_type := some "SaveImage",
                      inputs := some [("filename_prefix", .s "ComfyUI")] })]),
    templates := fun _ => none, tokens := fun _ => "W",
    queueStatus := 0, queueBody := "", promptId := "", history := [],
    imgFS := [], textDirs := [], mem1 := none }

/-- Node update with a replaced `inputs` dict. -/
def withInputs (n : PNode) (ins : List (String × JVal)) : PNode :=
  { n with inputs := some ins }

/-- Whether the extraction loop steps past a node without breaking:
mirrors the per-node structure of `extractUniqueToken`. -/
def extractionSkips (n : PNode) : Bool :=
  match n.inputs with
  | none => true
  | some ins =>
      (dictGet ins "filename_prefix").isNone &&
      (match dictGet ins "file" with
       | some (.s f) => !(strHasUnderscore f)
       | _ =>
           match dictGet ins "filename" with
           | some (.s f2) => !(strHasUnderscore f2)
           | _ => true)

/-- The C3 counterexample payload: an image-output node precedes the
text-output node. -/
def c3payload : Payload :=
  [("9", { class_type := some "SaveImage",
           inputs := some [("filename_prefix", .s "ComfyUI")] }),
   ("5", { class_type := some "SaveText|pysssss",
           inputs := some [("file", .s "out.txt")] })]

/-- The C3 token stream: the image node draws `tokA`, the text node draws
`tokB`. -/
def c3tokens : Nat → String := fun i => if i = 0 then "tokA" else "tokB"

/-- The C3 payload after injection. -/
def c3injected : Payload :=
  [("9", { class_type := some "SaveImage",
           inputs := some [("filename_prefix", .s "tokA")] }),
   ("5", { class_type := some "SaveText|pysssss",
           inputs := some [("file", .s "tokB_out.txt")] })]

/-- The C4 counterexample file: readable, but its deletion fails. -/
def c4file : TxtFile :=
  { name := "t.txt", textRead := some "hello", binRead := some "hello", removeOk := false }

/-- The C4 witness inputs: one convertible image on disk, one readable and
removable text file. -/
def c4wdesc : ImgDesc := { filename := some "img.png", dtype := some "output" }

/-- The image file backing the C4 witness descriptor. -/
def c4wimg : ImgFile :=
  { path := outImagePath c4wdesc, convert := some "b64data", removeRaises := false }

/-- The text file of the C4 witness. -/
def c4wfile : TxtFile :=
  { name := "a.txt", textRead := some "x", binRead := none, removeOk := true }

/-! ## Theorems -/

theorem strContains_wrap (x y s pat : String) (h : strContains s pat) :
    strContains ((x ++ s) ++ y) pat := by
  obtain ⟨a, b, rfl⟩ := h
  exact ⟨x ++ a, b ++ y, by simp [String.append_assoc]⟩

theorem strContains_formatExc (n msg pat : String) (h : strContains msg pat) :
    strContains (formatExc n msg) pat := by
  obtain ⟨a, b, hab⟩ := h
  refine ⟨("Traceback (most recent call last):\n  File handler.py\n" ++ n ++ ": ") ++ a,
    b ++ "\n", ?_⟩
  unfold formatExc
  rw [hab]
  simp [String.append_assoc]

theorem memGuardMsg_contains (m : Rat) :
    strContains (memGuardMsg m) "Insufficient available container memory" := by
  refine ⟨"", ": " ++ (pyFloat2f m ++ " GB available (minimum 0.5 GB required)"), ?_⟩
  unfold memGuardMsg
  simp [← String.append_assoc]

theorem diskGuardMsg_contains (d : Nat) :
    strContains (diskGuardMsg d) "Insufficient free container disk space" := by
  refine ⟨"", ": " ++ (pyFloat2f ((d : Rat) / ((1024 : Rat) ^ 3)) ++
    " GB available (minimum 0.5 GB required)"), ?_⟩
  unfold diskGuardMsg
  simp [← String.append_assoc]

theorem pollLogCond (r : Nat) :
    (if r = 0 ∨ r % 15 = 0 then (1 : Nat) else 0) = (if r % 15 = 0 then 1 else 0) := by
  by_cases h : r % 15 = 0
  · simp [h]
  · have h0 : r ≠ 0 := by rintro rfl; exact h rfl
    simp [h, h0]

theorem pollRun_script (rec : FinalRecord) (st : Nat) :
    ∀ n r, pollRun (List.replicate n ⟨st, none⟩ ++ [⟨200, some rec⟩]) r =
      some (rec, n + 1, countM r n) := by
  intro n
  induction n with
  | zero => intro r; simp [pollRun, countM, ← pollLogCond r]
  | succ n ih =>
      intro r
      simp only [List.replicate_succ, List.cons_append, pollRun]
      rw [show (List.replicate n (⟨st, none⟩ : HistEntry)).append [⟨200, some rec⟩] =
        List.replicate n ⟨st, none⟩ ++ [⟨200, some rec⟩] from rfl, ih (r + 1)]
      simp [countM, ← pollLogCond r]

theorem countM_succ_right : ∀ n r, countM r (n + 1) =
    countM r n + (if (r + (n + 1)) % 15 = 0 then 1 else 0) := by
  intro n
  induction n with
  | zero => intro r; simp [countM, Nat.add_comm]
  | succ n ih =>
      intro r
      have h := ih (r + 1)
      simp only [countM] at h ⊢
      rw [h]
      have he : r + 1 + (n + 1) = r + (n + 1 + 1) := by omega
      rw [he]
      ring

theorem countM_zero_left : ∀ n, countM 0 n = n / 15 + 1 := by
  intro n
  induction n with
  | zero => simp [countM]
  | succ n ih =>
      rw [countM_succ_right, ih, Nat.succ_div]
      by_cases h : (n + 1) % 15 = 0
      · have hd : 15 ∣ (n + 1) := Nat.dvd_of_mod_eq_zero h
        simp [h, hd]
        try omega
      · have hd : ¬ 15 ∣ (n + 1) := fun hc => h (Nat.mod_eq_zero_of_dvd hc)
        simp [h, hd]

/-- C9: over a scripted history sequence yielding empty bodies for `N`
attempts and then an HTTP-success non-empty body, the poll loop terminates
exactly at that first non-empty successful response (it issues `N + 1`
requests and returns the embedded record), and emits exactly one
first-attempt status log line plus `⌊N / 15⌋` periodic status log lines. -/
theorem claim_C9 (N st : Nat) (rec : FinalRecord) :
    pollRun (List.replicate N ⟨st, none⟩ ++ [⟨200, some rec⟩]) 0 =
      some (rec, N + 1, N / 15 + 1) := by
  rw [pollRun_script rec st N 0, countM_zero_left]

/-- C7: the success response always contains the `images` key (possibly an
empty list) and no `error` key; it contains the `text_files` key (with
exactly the harvested list) if and only if that list is non-empty; and it
contains the `refresh_worker` key — necessarily `true` — if and only if
post-job available memory is known and below 1.0 GB; absent keys are truly
absent (`none`), never defaults. -/
theorem claim_C7 (images : List String) (tfs : List TextEntryOut) (mem1 : Option Rat) :
    (successResponse images tfs mem1).images = some images ∧
    (successResponse images tfs mem1).error = none ∧
    (successResponse images tfs mem1).output = none ∧
    ((successResponse images tfs mem1).text_files = some tfs ∨
      (successResponse images tfs mem1).text_files = none) ∧
    ((∃ l, (successResponse images tfs mem1).text_files = some l) ↔ tfs ≠ []) ∧
    ((successResponse images tfs mem1).refresh_worker = some true ↔
      ∃ m, mem1 = some m ∧ m < 1) ∧
    ((successResponse images tfs mem1).refresh_worker = none ↔
      ¬ ∃ m, mem1 = some m ∧ m < 1) := by
  rcases mem1 with _ | m
  · by_cases ht : tfs = [] <;>
      simp [successResponse, ht, List.isEmpty_iff]
  · by_cases ht : tfs = [] <;> by_cases hm : m < 1 <;>
      simp [successResponse, ht, hm, List.isEmpty_iff]

/-- C1: refuted on the code — for the known named workflow `img2img`,
`get_workflow_payload` loads the template and returns it unchanged: the
substitution step runs only for `txt2img`, so every slot enumerated in the
img2img parameter-mapping table keeps its template default (here the seed
slot stays `0` instead of the job's `42`), even though the source's own
(never invoked) `get_img2img_payload` would have substituted them. -/
theorem claim_C1_bug :
    get_workflow_payload imgTemplates "img2img" (.params p0) =
      .ok (imgTemplate, [workflowPath "img2img"]) ∧
    getSlot imgTemplate "13" "seed" = some (.i 0) ∧
    p0.seed = 42 ∧
    get_img2img_payload imgTemplate p0 ≠ some imgTemplate := by
  refine ⟨rfl, by decide, by decide, by decide⟩

/-- C2: refuted on the code — on a terminal non-success poll result whose
messages list contains no `execution_error` entry at all (here: empty), the
message loop falls through without raising, the handler function ends, and
Python `None` is returned instead of the claimed generic
"job did not process successfully" error response. -/
theorem claim_C2_bug :
    recC2.status_str ≠ "success" ∧ recC2.messages = [] ∧
    handler envC2 =
      (.ret none,
       { filesRead := [], submittedPayload := some [], pollRequests := 1, pollLogs := 1 }) := by
  refine ⟨by decide, by decide, by decide⟩

theorem handlerFinish_trace (env : Env) (pl' : Payload) (tr : Trace) (rec : FinalRecord) :
    (handlerFinish env pl' tr rec).2 = tr := by
  unfold handlerFinish
  repeat' split
  all_goals rfl

theorem handlerSubmit_trace (env : Env) (pl' : Payload) (fr : List String) :
    (handlerSubmit env pl' fr).2.guardBlocked = false ∧
    (handlerSubmit env pl' fr).2.filesRead = fr ∧
    (handlerSubmit env pl' fr).2.submittedPayload = some pl' := by
  unfold handlerSubmit
  split
  · split
    · exact ⟨rfl, rfl, rfl⟩
    · rename_i rec reqs logs heq
      rw [handlerFinish_trace]
      exact ⟨rfl, rfl, rfl⟩
  · exact ⟨rfl, rfl, rfl⟩

theorem handlerRun_guardBlocked_false (env : Env) (wfName : String) (jp : JobPayload) :
    (handlerRun env wfName jp).2.guardBlocked = false := by
  unfold handlerRun
  dsimp only
  repeat' split
  · rfl
  · rfl
  · exact (handlerSubmit_trace _ _ _).1

theorem handler_guardBlocked_false (env : Env) (hg : guardError env.mem0 env.disk0 = none) :
    (handler env).2.guardBlocked = false := by
  unfold handler
  rw [hg]
  rcases env.validation with errs | ⟨wf0, jp⟩
  · rfl
  · exact handlerRun_guardBlocked_false env (aliasWorkflow wf0) jp

/-- C5: if available memory is known and below 0.5 GB, or free disk is known
and below 500 MB, the handler returns an error response whose text contains
the descriptive insufficiency message, with nothing ever submitted to the
generation service (the trace records no submitted payload and no files
read); if neither metric blocks (each one unknown or above its threshold),
the guard does not reject and the job proceeds. -/
theorem claim_C5 (env : Env) :
    (((∃ m, env.mem0 = some m ∧ m < 1 / 2) ∨
      (∃ d, env.disk0 = some d ∧ d < DISK_MIN_FREE_BYTES)) →
      ∃ t, handler env =
          (.ret (some { error := some t, refresh_worker := some true }),
            { guardBlocked := true, filesRead := [], submittedPayload := none,
              pollRequests := 0, pollLogs := 0 }) ∧
        (strContains t "Insufficient available container memory" ∨
         strContains t "Insufficient free container disk space")) ∧
    (((∀ m, env.mem0 = some m → ¬ m < 1 / 2) ∧
      (∀ d, env.disk0 = some d → ¬ d < DISK_MIN_FREE_BYTES)) →
      (handler env).2.guardBlocked = false) := by
  constructor
  · rintro (⟨m, hm, hlt⟩ | ⟨d, hd, hlt⟩)
    · have hg : guardError env.mem0 env.disk0 = some (memGuardMsg m) := by
        unfold guardError
        rw [hm]
        dsimp only
        rw [if_pos hlt]
      refine ⟨formatExc "Exception" (memGuardMsg m), ?_, ?_⟩
      · unfold handler
        rw [hg]
      · exact Or.inl (strContains_formatExc _ _ _ (memGuardMsg_contains m))
    · rcases hmem : env.mem0 with _ | m'
      · have hg : guardError env.mem0 env.disk0 = some (diskGuardMsg d) := by
          unfold guardError
          rw [hmem, hd]
          dsimp only
          rw [if_pos hlt]
        refine ⟨formatExc "Exception" (diskGuardMsg d), ?_, ?_⟩
        · unfold handler
          rw [hg]
        · exact Or.inr (strContains_formatExc _ _ _ (diskGuardMsg_contains d))
      · by_cases hm' : m' < 1 / 2
        · have hg : guardError env.mem0 env.disk0 = some (memGuardMsg m') := by
            unfold guardError
            rw [hmem]
            dsimp only
            rw [if_pos hm']
          refine ⟨formatExc "Exception" (memGuardMsg m'), ?_, ?_⟩
          · unfold handler
            rw [hg]
          · exact Or.inl (strContains_formatExc _ _ _ (memGuardMsg_contains m'))
        · have hg : guardError env.mem0 env.disk0 = some (diskGuardMsg d) := by
            unfold guardError
            rw [hmem, hd]
            dsimp only
            rw [if_neg hm', if_pos hlt]
          refine ⟨formatExc "Exception" (diskGuardMsg d), ?_, ?_⟩
          · unfold handler
            rw [hg]
          · exact Or.inr (strContains_formatExc _ _ _ (diskGuardMsg_contains d))
  · rintro ⟨h1, h2⟩
    have hg : guardError env.mem0 env.disk0 = none := by
      unfold guardError
      rcases hmem : env.mem0 with _ | m
      · rcases hdisk : env.disk0 with _ | d
        · rfl
        · simp [h2 d hdisk]
      · rcases hdisk : env.disk0 with _ | d
        · simp [h1 m hmem]
          linarith [h1 m hmem]
        · simp [h1 m hmem, h2 d hdisk]
          linarith [h1 m hmem]
    exact handler_guardBlocked_false env hg

/-- Witness for C5 at a concrete low-memory environment. -/
theorem claim_C5_witness :
    ∃ t, handler envC5 =
        (.ret (some { error := some t, refresh_worker := some true }),
          { guardBlocked := true, filesRead := [], submittedPayload := none,
            pollRequests := 0, pollLogs := 0 }) ∧
      (strContains t "Insufficient available container memory" ∨
       strContains t "Insufficient free container disk space") :=
  (claim_C5 envC5).1 (Or.inl ⟨1 / 4, rfl, by norm_num⟩)

theorem classify_skip (pid : String) (pre rest : List (String × ExecErrVal))
    (h : ∀ kv ∈ pre, kv.1 ≠ "execution_error") :
    classifyFailureMsg pid (pre ++ rest) = classifyFailureMsg pid rest := by
  induction pre with
  | nil => rfl
  | cons kv tl ih =>
      obtain ⟨k, v⟩ := kv
      have hk : k ≠ "execution_error" := h (k, v) (List.mem_cons_self _ _)
      simp only [List.cons_append, classifyFailureMsg, if_neg hk]
      exact ih (fun x hx => h x (List.mem_cons_of_mem _ hx))

/-- C6: when the terminal non-success record's messages contain an
`execution_error` entry carrying both a node type and an exception message
(and it is the first `execution_error` entry, as in the service's
single-error reports), the handler's non-success branch produces an error
response with `refresh_worker := true` whose error text contains both the
node type and the exception message. -/
theorem claim_C6 (pid nt em : String) (pre rest : List (String × ExecErrVal))
    (h : ∀ kv ∈ pre, kv.1 ≠ "execution_error") :
    ∃ t, nonSuccessResult pid
        (pre ++ ("execution_error", ⟨some nt, some em⟩) :: rest) =
        some { error := some t, refresh_worker := some true } ∧
      strContains t nt ∧ strContains t em := by
  refine ⟨formatExc "RuntimeError" (nt ++ ": " ++ em), ?_, ?_, ?_⟩
  · unfold nonSuccessResult
    rw [classify_skip pid pre _ h]
    simp [classifyFailureMsg]
  · exact strContains_formatExc _ _ _ ⟨"", ": " ++ em, by simp [← String.append_assoc]⟩
  · exact strContains_formatExc _ _ _ ⟨nt ++ ": ", "", by simp [← String.append_assoc]⟩

/-- Witness for C6 at the spec's concrete scenario. -/
theorem claim_C6_witness :
    ∃ t, nonSuccessResult "prompt-1"
        ([] ++ ("execution_error",
          ⟨some "KSampler", some "CUDA OOM"⟩) :: []) =
        some { error := some t, refresh_worker := some true } ∧
      strContains t "KSampler" ∧ strContains t "CUDA OOM" :=
  claim_C6 "prompt-1" "KSampler" "CUDA OOM" [] [] (by simp)

/-- C10: a job whose workflow name is the literal `default` is handled
exactly as if the workflow name were `txt2img`: the two environments
produce identical outcomes and identical traces (same template read, same
substitution, same submission). -/
theorem claim_C10 (env : Env) (jp : JobPayload) :
    handler { env with validation := .ok ("default", jp) } =
      handler { env with validation := .ok ("txt2img", jp) } := by
  unfold handler
  cases hg : guardError env.mem0 env.disk0 with
  | some msg => rfl
  | none =>
      show handlerRun env (aliasWorkflow "default") jp = handlerRun env (aliasWorkflow "txt2img") jp
      rw [show aliasWorkflow "default" = aliasWorkflow "txt2img" from by decide]

theorem handlerRun_custom (env : Env) (g g' : Payload)
    (hi : injectUniqueFilenameTokens env.tokens g = some g') :
    handlerRun env "custom" (.graph g) = handlerSubmit env g' [] := by
  unfold handlerRun
  dsimp only
  rw [if_pos rfl]
  dsimp only
  rw [hi]

/-- C8: for a `custom`-workflow job with a caller-supplied node graph, the
handler reads no workflow template file and the payload it submits is
exactly the caller's graph after unique-token injection (and nothing
else). -/
theorem claim_C8 (env : Env) (g g' : Payload)
    (hg : guardError env.mem0 env.disk0 = none)
    (hv : env.validation = .ok ("custom", .graph g))
    (hi : injectUniqueFilenameTokens env.tokens g = some g') :
    (handler env).2.filesRead = [] ∧ (handler env).2.submittedPayload = some g' := by
  unfold handler
  rw [hg, hv]
  show (handlerRun env (aliasWorkflow "custom") (.graph g)).2.filesRead = [] ∧
    (handlerRun env (aliasWorkflow "custom") (.graph g)).2.submittedPayload = some g'
  rw [show aliasWorkflow "custom" = "custom" from by decide, handlerRun_custom env g g' hi]
  exact ⟨(handlerSubmit_trace env g' []).2.1, (handlerSubmit_trace env g' []).2.2⟩

/-- Witness for C8 at a concrete custom-workflow environment. -/
theorem claim_C8_witness :
    (handler envC8).2.filesRead = [] ∧
      (handler envC8).2.submittedPayload =
        some [("9", { class_type := some "SaveImage",
                      inputs := some [("filename_prefix", .s "W")] })] :=
  claim_C8 envC8 _ _ (by rfl) (by rfl) (by decide)

theorem dictGet_dictSet_self : ∀ (l : List (String × JVal)) (k : String) (v : JVal),
    dictGet (dictSet l k v) k = some v := by
  intro l k v
  induction l with
  | nil => simp [dictSet, dictGet]
  | cons kv tl ih =>
      obtain ⟨k', v'⟩ := kv
      by_cases h : k' = k
      · simp [dictSet, h, dictGet]
      · simp [dictSet, h, dictGet, ih]

theorem dictGet_dictSet_ne : ∀ (l : List (String × JVal)) (k k' : String) (v : JVal),
    k' ≠ k → dictGet (dictSet l k v) k' = dictGet l k' := by
  intro l k k' v hne
  have hkk : ¬ (k = k') := fun hh => hne hh.symm
  induction l with
  | nil => simp [dictSet, dictGet, hkk]
  | cons kv tl ih =>
      obtain ⟨a, b⟩ := kv
      by_cases h : a = k
      · subst h
        simp [dictSet, dictGet, hkk]
      · simp [dictSet, h, dictGet, ih]

theorem textClass_ne_saveImage (ct : Option String) (h : isTextOutputClass ct = true) :
    ct ≠ some "SaveImage" := by
  intro hc
  subst hc
  simp [isTextOutputClass, textOutputTypes] at h

theorem injectNode_untouched (tok : String) (n : PNode)
    (h1 : n.class_type ≠ some "SaveImage") (h2 : isTextOutputClass n.class_type = false) :
    injectNode tok n = some (n, false) := by
  unfold injectNode
  rw [if_neg h1, if_neg (by simp [h2])]

theorem injectGo_untouched (tokens : Nat → String) :
    ∀ (pre : Payload) (i : Nat),
      (∀ kn ∈ pre, kn.2.class_type ≠ some "SaveImage" ∧
        isTextOutputClass kn.2.class_type = false) →
      injectGo tokens i pre = some (pre, i) := by
  intro pre
  induction pre with
  | nil => intro i h; rfl
  | cons kn tl ih =>
      intro i h
      obtain ⟨k, n⟩ := kn
      obtain ⟨ha, hb⟩ := h (k, n) (List.mem_cons_self _ _)
      unfold injectGo
      simp [injectNode_untouched (tokens i) n ha hb,
        ih i (fun x hx => h x (List.mem_cons_of_mem _ hx))]

theorem injectGo_append (tokens : Nat → String) :
    ∀ (xs ys : Payload) (i : Nat),
      injectGo tokens i (xs ++ ys) =
        match injectGo tokens i xs with
        | none => none
        | some (xs', i') =>
            match injectGo tokens i' ys with
            | none => none
            | some (ys', i'') => some (xs' ++ ys', i'') := by
  intro xs
  induction xs with
  | nil =>
      intro ys i
      rcases h : injectGo tokens i ys with _ | ⟨ys', i''⟩ <;>
        simp [injectGo, h]
  | cons kn tl ih =>
      intro ys i
      obtain ⟨k, n⟩ := kn
      simp only [List.cons_append, injectGo]
      rcases hn : injectNode (tokens i) n with _ | ⟨n', used⟩
      · rfl
      · dsimp only
        rcases h1 : injectGo tokens (if used then i + 1 else i) tl with _ | ⟨tl', j⟩
        · simp [ih ys (if used then i + 1 else i), h1]
        · rcases h2 : injectGo tokens j ys with _ | ⟨ys', j'⟩ <;>
            simp [ih ys (if used then i + 1 else i), h1, h2]

theorem extract_cons_skip (k : String) (n : PNode) (rest : Payload)
    (hn : extractionSkips n = true) :
    extractUniqueToken ((k, n) :: rest) = extractUniqueToken rest := by
  unfold extractionSkips at hn
  simp only [extractUniqueToken]
  rcases hi : n.inputs with _ | ins
  · rfl
  · dsimp only
    rcases hfp : dictGet ins "filename_prefix" with _ | v0
    · dsimp only
      rcases hfile : dictGet ins "file" with _ | v1
      · dsimp only
        rcases hname : dictGet ins "filename" with _ | v2
        · rfl
        · rcases v2 with f2 | x | x | x
          · dsimp only
            have hu : strHasUnderscore f2 = false := by simp_all
            rw [if_neg (by simp [hu])]
          · rfl
          · rfl
          · rfl
      · rcases v1 with f | x | x | x
        · dsimp only
          have hu : strHasUnderscore f = false := by simp_all
          rw [if_neg (by simp [hu])]
        all_goals
          dsimp only
          rcases hname : dictGet ins "filename" with _ | v2
          · rfl
          · rcases v2 with f2 | y | y | y
            · dsimp only
              have hu : strHasUnderscore f2 = false := by simp_all
              rw [if_neg (by simp [hu])]
            · rfl
            · rfl
            · rfl
    · simp_all

theorem extract_append_skips :
    ∀ (pre rest : Payload), (∀ kn ∈ pre, extractionSkips kn.2 = true) →
      extractUniqueToken (pre ++ rest) = extractUniqueToken rest := by
  intro pre
  induction pre with
  | nil => intro rest h; rfl
  | cons kn tl ih =>
      intro rest h
      obtain ⟨k, n⟩ := kn
      rw [List.cons_append, extract_cons_skip k n (tl ++ rest)
        (h (k, n) (List.mem_cons_self _ _))]
      exact ih rest (fun x hx => h x (List.mem_cons_of_mem _ hx))

theorem strMk_data (s : String) : String.mk s.data = s := rfl

theorem takeWhile_all_append {α : Type} (p : α → Bool) :
    ∀ (l1 l2 : List α), (∀ x ∈ l1, p x = true) →
      (l1 ++ l2).takeWhile p = l1 ++ l2.takeWhile p := by
  intro l1
  induction l1 with
  | nil => intro l2 h; simp
  | cons a tl ih =>
      intro l2 h
      have ha := h a (List.mem_cons_self _ _)
      simp [List.takeWhile_cons, ha, ih l2 (fun x hx => h x (List.mem_cons_of_mem _ hx))]

theorem strHasUnderscore_mid (a b : String) : strHasUnderscore (a ++ "_" ++ b) = true := by
  unfold strHasUnderscore
  rw [String.data_append, String.data_append, show ("_" : String).data = ['_'] from rfl]
  simp [List.any_append]

theorem splitUnderscoreHead_prepend (tok rest : String) (h : strHasUnderscore tok = false) :
    splitUnderscoreHead (tok ++ "_" ++ rest) = tok := by
  have hall : ∀ c ∈ tok.data, (c != '_') = true := by
    intro c hc
    unfold strHasUnderscore at h
    cases hcc : (c == '_') with
    | false => simp [bne, hcc]
    | true =>
        have hany : tok.data.any (fun c => c == '_') = true :=
          List.any_eq_true.mpr ⟨c, hc, hcc⟩
        rw [hany] at h
        cases h
  unfold splitUnderscoreHead
  rw [String.data_append, String.data_append, show ("_" : String).data = ['_'] from rfl,
    List.append_assoc]
  rw [takeWhile_all_append _ tok.data _ hall]
  simp [List.takeWhile_cons]

theorem inject_whole (tokens : Nat → String) (pre post : Payload) (k : String)
    (tn tn' : PNode)
    (hcls : ∀ kn ∈ pre, kn.2.class_type ≠ some "SaveImage" ∧
      isTextOutputClass kn.2.class_type = false)
    (hnode : injectNode (tokens 0) tn = some (tn', true)) :
    injectUniqueFilenameTokens tokens (pre ++ (k, tn) :: post) =
      match injectGo tokens 1 post with
      | none => none
      | some (post', _) => some (pre ++ (k, tn') :: post') := by
  unfold injectUniqueFilenameTokens
  rw [injectGo_append, injectGo_untouched tokens pre 0 hcls]
  dsimp only
  simp only [injectGo]
  rw [hnode]
  dsimp only
  rw [if_pos rfl, show (0 : Nat) + 1 = 1 from rfl]
  rcases hpost : injectGo tokens 1 post with _ | ⟨post', i''⟩ <;> simp [hpost]

/-- C3 counterexample: each output node draws its own fresh token, and the
extraction loop takes the first prefix-bearing node in payload order — here
the image node.  The extracted token `tokA` is not the token `tokB` that
was injected into the job's text-output node, and the text artifact
`tokB_out.txt` does not start with the extracted token, so the filesystem
scan would not consider this job's text file. -/
theorem claim_C3_cex :
    injectUniqueFilenameTokens c3tokens c3payload = some c3injected ∧
    extractUniqueToken c3injected = some (.s "tokA") ∧
    getSlot c3injected "5" "file" = some (.s "tokB_out.txt") ∧
    ("tokA" : String) ≠ "tokB" ∧
    pyStartsWith "tokB_out.txt" "tokA" = false := by
  refine ⟨by decide, by decide, by decide, by decide, by decide⟩

/-- C3 (amended): each output node receives its own independently drawn
token, and the extraction loop recovers the token of the first
prefix-bearing node in payload order.  Hence when every node preceding the
text-output node is neither an image-output nor a text-output node and is
stepped past by the extraction probe, and the text-output node carries one
of the three filename conventions (and the drawn token contains no
underscore, as uuid4 tokens do not), the extraction recovers exactly the
token injected into that text-output node. -/
theorem claim_C3 (tokens : Nat → String) (pre post : Payload) (k : String) (tn : PNode)
    (ins : List (String × JVal))
    (hpre : ∀ kn ∈ pre, kn.2.class_type ≠ some "SaveImage" ∧
      isTextOutputClass kn.2.class_type = false ∧ extractionSkips kn.2 = true)
    (htn : isTextOutputClass tn.class_type = true)
    (hins : tn.inputs = some ins)
    (htok : strHasUnderscore (tokens 0) = false)
    (hconv : (dictGet ins "filename_prefix").isSome ∨ (dictGet ins "file").isSome ∨
      (dictGet ins "filename").isSome)
    (p' : Payload)
    (hinj : injectUniqueFilenameTokens tokens (pre ++ (k, tn) :: post) = some p') :
    extractUniqueToken p' = some (.s (tokens 0)) := by
  have hcls : ∀ kn ∈ pre, kn.2.class_type ≠ some "SaveImage" ∧
      isTextOutputClass kn.2.class_type = false :=
    fun x hx => ⟨(hpre x hx).1, (hpre x hx).2.1⟩
  have hskips : ∀ kn ∈ pre, extractionSkips kn.2 = true := fun x hx => (hpre x hx).2.2
  have hnsi := textClass_ne_saveImage tn.class_type htn
  rcases hfp : dictGet ins "filename_prefix" with _ | v0
  · rcases hfile : dictGet ins "file" with _ | v1
    · rcases hname : dictGet ins "filename" with _ | v2
      · simp [hfp, hfile, hname] at hconv
      · -- filename convention
        have hnode : injectNode (tokens 0) tn =
            some (withInputs tn (dictSet ins "filename" (.s (tokens 0 ++ "_" ++ pyStr v2))),
              true) := by
          unfold injectNode
          rw [if_neg hnsi, if_pos htn, hins]
          dsimp only
          rw [hfp]
          dsimp only
          rw [hfile]
          dsimp only
          rw [hname]
          rfl
        rw [inject_whole tokens pre post k tn _ hcls hnode] at hinj
        rcases hpost : injectGo tokens 1 post with _ | ⟨post', i''⟩
        · first
          | rw [hpost] at hinj
          | skip
          dsimp only at hinj
          exact absurd hinj (by simp)
        · first
          | rw [hpost] at hinj
          | skip
          dsimp only at hinj
          obtain rfl := Option.some.inj hinj
          rw [extract_append_skips pre _ hskips]
          simp only [extractUniqueToken, withInputs]
          rw [dictGet_dictSet_ne ins "filename" "filename_prefix" _ (by decide), hfp]
          dsimp only
          rw [dictGet_dictSet_ne ins "filename" "file" _ (by decide), hfile]
          dsimp only
          rw [dictGet_dictSet_self]
          dsimp only
          rw [if_pos (strHasUnderscore_mid (tokens 0) (pyStr v2)),
            splitUnderscoreHead_prepend (tokens 0) (pyStr v2) htok]
    · -- file convention
      have hnode : injectNode (tokens 0) tn =
          some (withInputs tn (dictSet ins "file" (.s (tokens 0 ++ "_" ++ pyStr v1))),
            true) := by
        unfold injectNode
        rw [if_neg hnsi, if_pos htn, hins]
        dsimp only
        rw [hfp]
        dsimp only
        rw [hfile]
        rfl
      rw [inject_whole tokens pre post k tn _ hcls hnode] at hinj
      rcases hpost : injectGo tokens 1 post with _ | ⟨post', i''⟩
      · first
        | rw [hpost] at hinj
        | skip
        dsimp only at hinj
        exact absurd hinj (by simp)
      · first
        | rw [hpost] at hinj
        | skip
        dsimp only at hinj
        obtain rfl := Option.some.inj hinj
        rw [extract_append_skips pre _ hskips]
        simp only [extractUniqueToken, withInputs]
        rw [dictGet_dictSet_ne ins "file" "filename_prefix" _ (by decide), hfp]
        dsimp only
        rw [dictGet_dictSet_self]
        dsimp only
        rw [if_pos (strHasUnderscore_mid (tokens 0) (pyStr v1)),
          splitUnderscoreHead_prepend (tokens 0) (pyStr v1) htok]
  · -- filename_prefix convention
    have hnode : injectNode (tokens 0) tn =
        some (withInputs tn (dictSet ins "filename_prefix" (.s (tokens 0))), true) := by
      unfold injectNode
      rw [if_neg hnsi, if_pos htn, hins]
      dsimp only
      rw [hfp]
      rfl
    rw [inject_whole tokens pre post k tn _ hcls hnode] at hinj
    rcases hpost : injectGo tokens 1 post with _ | ⟨post', i''⟩
    · first
      | rw [hpost] at hinj
      | skip
      dsimp only at hinj
      exact absurd hinj (by simp)
    · first
      | rw [hpost] at hinj
      | skip
      dsimp only at hinj
      obtain rfl := Option.some.inj hinj
      rw [extract_append_skips pre _ hskips]
      simp only [extractUniqueToken, withInputs]
      rw [dictGet_dictSet_self]

/-- Witness for C3 at a single text-output node using the `file`
convention. -/
theorem claim_C3_witness :
    extractUniqueToken
        [("5", ⟨some "SaveText", some [("file", .s "W_out.txt")]⟩)] = some (.s "W") :=
  claim_C3 (fun _ => "W") [] [] "5"
    ⟨some "SaveText", some [("file", .s "out.txt")]⟩
    [("file", .s "out.txt")] (by simp) (by decide) rfl (by decide)
    (Or.inr (Or.inl (by decide))) _ (by decide)

theorem fsFind_has (fs : ImgFS) (p : String) (f : ImgFile) (h : fsFind fs p = some f) :
    fsHas fs p = true := by
  simp only [fsFind] at h
  have hm := List.mem_of_find?_eq_some h
  have hp := List.find?_some h
  simp only [fsHas, List.any_eq_true]
  exact ⟨f, hm, hp⟩

theorem fsFind_none_has (fs : ImgFS) (p : String) (h : fsFind fs p = none) :
    fsHas fs p = false := by
  simp only [fsFind] at h
  simp only [fsHas]
  cases hA : fs.any (fun f => f.path == p) with
  | false => rfl
  | true =>
      obtain ⟨f, hf, hfp⟩ := List.any_eq_true.mp hA
      have := List.find?_eq_none.mp h f hf
      simp [hfp] at this

theorem fsHas_fsRemove_self (fs : ImgFS) (p : String) : fsHas (fsRemove fs p) p = false := by
  simp only [fsHas, fsRemove]
  cases hA : (fs.filter (fun f => !(f.path == p))).any (fun f => f.path == p) with
  | false => rfl
  | true =>
      obtain ⟨f, hf, hfp⟩ := List.any_eq_true.mp hA
      have := (List.mem_filter.mp hf).2
      simp [hfp] at this

theorem fsHas_fsRemove_mono (fs : ImgFS) (p q : String)
    (h : fsHas (fsRemove fs p) q = true) : fsHas fs q = true := by
  simp only [fsHas, fsRemove, List.any_eq_true] at h ⊢
  obtain ⟨f, hf, hfq⟩ := h
  exact ⟨f, (List.mem_filter.mp hf).1, hfq⟩

theorem fsHas_branch_mono (fs : ImgFS) (p q : String) (b : Bool)
    (h : fsHas (if b then fs else fsRemove fs p) q = true) : fsHas fs q = true := by
  by_cases hb : b
  · rw [if_pos hb] at h; exact h
  · rw [if_neg hb] at h; exact fsHas_fsRemove_mono fs p q h

theorem imgConvertedPaths_mem : ∀ (descs : List ImgDesc) (fs : ImgFS) (q : String),
    q ∈ imgConvertedPaths descs fs → fsHas fs q = true := by
  intro descs
  induction descs with
  | nil => intro fs q h; simp [imgConvertedPaths] at h
  | cons d ds ih =>
      intro fs q h
      simp only [imgConvertedPaths] at h
      by_cases hdt : d.dtype = some "output"
      · rw [if_pos hdt] at h
        rcases hf : fsFind fs (outImagePath d) with _ | f
        · rw [hf] at h
          exact ih fs q h
        · rw [hf] at h
          dsimp only at h
          by_cases hrr : f.removeRaises
          · rw [if_pos hrr] at h; simp at h
          · rw [if_neg hrr] at h
            rcases List.mem_append.mp h with h1 | h2
            · have hq : q = outImagePath d := by
                by_cases hc : f.convert.isSome
                · rw [if_pos hc] at h1
                  simpa using h1
                · rw [if_neg hc] at h1
                  simp at h1
              subst hq
              exact fsFind_has fs _ f hf
            · exact fsHas_fsRemove_mono fs _ q (ih _ q h2)
      · rw [if_neg hdt] at h
        by_cases hdt2 : d.dtype = some "temp"
        · rw [if_pos hdt2] at h
          rcases hf : fsFind fs (tempImagePath d) with _ | f
          · rw [hf] at h
            rcases hf2 : fsFind fs (tmpImagePath d) with _ | f2
            · rw [hf2] at h
              exact ih fs q h
            · rw [hf2] at h
              dsimp only at h
              exact fsHas_branch_mono fs _ q _ (ih _ q h)
          · rw [hf] at h
            dsimp only at h
            exact fsHas_branch_mono fs _ q _ (ih _ q h)
        · rw [if_neg hdt2] at h
          exact ih fs q h

theorem imgConvertedPaths_nodup : ∀ (descs : List ImgDesc) (fs : ImgFS),
    (imgConvertedPaths descs fs).Nodup := by
  intro descs
  induction descs with
  | nil => intro fs; simp [imgConvertedPaths]
  | cons d ds ih =>
      intro fs
      simp only [imgConvertedPaths]
      by_cases hdt : d.dtype = some "output"
      · rw [if_pos hdt]
        rcases hf : fsFind fs (outImagePath d) with _ | f
        · exact ih fs
        · dsimp only
          by_cases hrr : f.removeRaises
          · simp [hrr]
          · rw [if_neg hrr]
            by_cases hc : f.convert.isSome
            · rw [if_pos hc]
              rw [List.singleton_append, List.nodup_cons]
              refine ⟨?_, ih _⟩
              intro hmem
              have := imgConvertedPaths_mem ds (fsRemove fs (outImagePath d)) _ hmem
              rw [fsHas_fsRemove_self] at this
              cases this
            · rw [if_neg hc, List.nil_append]
              exact ih _
      · rw [if_neg hdt]
        by_cases hdt2 : d.dtype = some "temp"
        · rw [if_pos hdt2]
          rcases hf : fsFind fs (tempImagePath d) with _ | f
          · rcases hf2 : fsFind fs (tmpImagePath d) with _ | f2
            · exact ih fs
            · exact ih _
          · exact ih _
        · rw [if_neg hdt2]
          exact ih fs

theorem processOutputImages_ok : ∀ (descs : List ImgDesc) (fs : ImgFS)
    (imgs : List String) (fs' : ImgFS),
    processOutputImages descs fs = .ok (imgs, fs') →
    imgs.length = (imgConvertedPaths descs fs).length ∧
    (∀ q, fsHas fs' q = true → fsHas fs q = true) ∧
    (∀ d ∈ descs, d.dtype = some "output" → fsHas fs' (outImagePath d) = false) := by
  intro descs
  induction descs with
  | nil =>
      intro fs imgs fs' h
      simp only [processOutputImages] at h
      obtain ⟨rfl, rfl⟩ := Prod.mk.injEq .. |>.mp (Except.ok.inj h).symm
      exact ⟨by simp [imgConvertedPaths], fun q hq => hq, by simp⟩
  | cons d ds ih =>
      intro fs imgs fs' h
      simp only [processOutputImages] at h
      simp only [imgConvertedPaths]
      by_cases hdt : d.dtype = some "output"
      · rw [if_pos hdt] at h ⊢
        rcases hf : fsFind fs (outImagePath d) with _ | f
        · try rw [hf] at h
          try rw [hf]
          try dsimp only at h
          try dsimp only
          obtain ⟨h1, h2, h3⟩ := ih fs imgs fs' h
          refine ⟨h1, h2, ?_⟩
          intro d' hd' hdt'
          rcases List.mem_cons.mp hd' with rfl | hmem
          · have habs : fsHas fs (outImagePath d') = false := fsFind_none_has fs _ hf
            cases hcase : fsHas fs' (outImagePath d') with
            | false => rfl
            | true =>
                have := h2 _ hcase
                rw [habs] at this
                cases this
          · exact h3 d' hmem hdt'
        · try rw [hf] at h
          try rw [hf]
          try dsimp only at h
          try dsimp only
          by_cases hrr : f.removeRaises
          · rw [if_pos hrr] at h
            cases h
          · rw [if_neg hrr] at h ⊢
            rcases hrec : processOutputImages ds (fsRemove fs (outImagePath d)) with e | p1
            · try rw [hrec] at h
              try dsimp only at h
              cases h
            · obtain ⟨is, fs1⟩ := p1
              try rw [hrec] at h
              try dsimp only at h
              obtain ⟨hl, hsub, hrem⟩ := ih (fsRemove fs (outImagePath d)) is fs1 hrec
              have hend : ∀ d' ∈ d :: ds, d'.dtype = some "output" →
                  fsHas fs1 (outImagePath d') = false := by
                intro d' hd' hdt'
                rcases List.mem_cons.mp hd' with rfl | hmem
                · cases hcase : fsHas fs1 (outImagePath d') with
                  | false => rfl
                  | true =>
                      have := hsub _ hcase
                      rw [fsHas_fsRemove_self] at this
                      cases this
                · exact hrem d' hmem hdt'
              rcases hc : f.convert with _ | b
              · try rw [hc] at h
                try dsimp only at h
                obtain ⟨rfl, rfl⟩ := Prod.mk.injEq .. |>.mp (Except.ok.inj h).symm
                refine ⟨?_, fun q hq => fsHas_fsRemove_mono fs _ q (hsub q hq), hend⟩
                simp [hc, hl]
              · try rw [hc] at h
                try dsimp only at h
                obtain ⟨rfl, rfl⟩ := Prod.mk.injEq .. |>.mp (Except.ok.inj h).symm
                refine ⟨?_, fun q hq => fsHas_fsRemove_mono fs _ q (hsub q hq), hend⟩
                simp [hc, hl]
      · rw [if_neg hdt] at h ⊢
        have tailGoal : ∀ (fs2 : ImgFS),
            processOutputImages ds fs2 = .ok (imgs, fs') →
            (∀ q, fsHas fs2 q = true → fsHas fs q = true) →
            imgs.length = (imgConvertedPaths ds fs2).length ∧
            (∀ q, fsHas fs' q = true → fsHas fs q = true) ∧
            (∀ d' ∈ d :: ds, d'.dtype = some "output" →
              fsHas fs' (outImagePath d') = false) := by
          intro fs2 h2 hmono
          obtain ⟨hl, hsub, hrem⟩ := ih fs2 imgs fs' h2
          refine ⟨hl, fun q hq => hmono q (hsub q hq), ?_⟩
          intro d' hd' hdt'
          rcases List.mem_cons.mp hd' with rfl | hmem
          · exact absurd hdt' hdt
          · exact hrem d' hmem hdt'
        by_cases hdt2 : d.dtype = some "temp"
        · rw [if_pos hdt2] at h ⊢
          rcases hf : fsFind fs (tempImagePath d) with _ | f
          · try rw [hf] at h
            try rw [hf]
            try dsimp only at h
            try dsimp only
            rcases hf2 : fsFind fs (tmpImagePath d) with _ | f2
            · try rw [hf2] at h
              try rw [hf2]
              try dsimp only at h
              try dsimp only
              exact tailGoal fs h (fun q hq => hq)
            · try rw [hf2] at h
              try rw [hf2]
              try dsimp only at h
              try dsimp only
              exact tailGoal _ h (fun q hq => fsHas_branch_mono fs _ q _ hq)
          · try rw [hf] at h
            try rw [hf]
            try dsimp only at h
            try dsimp only
            exact tailGoal _ h (fun q hq => fsHas_branch_mono fs _ q _ hq)
        · rw [if_neg hdt2] at h ⊢
          exact tailGoal fs h (fun q hq => hq)

theorem scanDirFiles_entries (up : Option JVal) : ∀ (files : List TxtFile),
    (scanDirFiles up files).1 = (files.map (textEntriesOf up)).flatten := by
  intro files
  induction files with
  | nil => rfl
  | cons f rest ih =>
      rcases hrec : scanDirFiles up rest with ⟨es, fs2⟩
      rw [hrec] at ih
      dsimp only at ih
      simp only [scanDirFiles, hrec, List.map_cons, List.flatten_cons]
      by_cases hs : shouldProcess up f <;>
        simp [hs, textEntriesOf, ih]

theorem scanDirFiles_survivors (up : Option JVal) : ∀ (files : List TxtFile),
    (scanDirFiles up files).2 =
      files.filter (fun f => !(shouldProcess up f && (processTextFile f).2)) := by
  intro files
  induction files with
  | nil => rfl
  | cons f rest ih =>
      rcases hrec : scanDirFiles up rest with ⟨es, fs2⟩
      rw [hrec] at ih
      dsimp only at ih
      simp only [Bool.not_and] at ih
      simp only [scanDirFiles, hrec, List.filter_cons]
      by_cases hs : shouldProcess up f
      · by_cases hrm : (processTextFile f).2 <;>
          simp [hs, hrm, ih]
      · simp [hs, ih]

theorem textEntriesOf_le_one (up : Option JVal) (f : TxtFile) (h : f.removeOk = true) :
    (textEntriesOf up f).length ≤ 1 := by
  unfold textEntriesOf
  by_cases hs : shouldProcess up f
  · rw [if_pos hs]
    obtain ⟨nm, tr, br, rm⟩ := f
    cases tr <;> cases br <;> simp_all [processTextFile]
  · simp [hs]

theorem textEntriesOf_removed (up : Option JVal) (f : TxtFile) (h : f.removeOk = true)
    (hne : textEntriesOf up f ≠ []) :
    shouldProcess up f = true ∧ (processTextFile f).2 = true := by
  unfold textEntriesOf at hne
  by_cases hs : shouldProcess up f
  · refine ⟨hs, ?_⟩
    obtain ⟨nm, tr, br, rm⟩ := f
    cases tr <;> cases br <;> simp_all [processTextFile]
  · rw [if_neg hs] at hne
    exact absurd rfl hne

/-- C4 counterexample: when the per-file `os.remove` fails after a
successful text read, the exception triggers the binary fallback, which
re-reads and re-appends the same file; the scan reports the file twice and
the file is still on disk after harvesting. -/
theorem claim_C4_cex :
    scan_for_text_files none [some [c4file]] =
      ([⟨"t.txt", "hello"⟩, ⟨"t.txt", "hello"⟩], [some [c4file]]) := by
  decide

/-- C4 (amended): exactly-once delivery and removal hold for image
harvesting unconditionally whenever it completes normally (each reported
entry comes from a distinct converted file, and every reported output-class
file is gone afterwards), and for text harvesting whenever every per-file
deletion succeeds (the report is the per-file contributions in order, each
file contributes at most one entry, and every contributing file is gone
from the survivors); a text-file deletion failure after a successful read,
however, reports the same file twice and leaves it on disk. -/
theorem claim_C4 :
    (∀ (descs : List ImgDesc) (fs : ImgFS) (imgs : List String) (fs' : ImgFS),
      processOutputImages descs fs = .ok (imgs, fs') →
      (imgConvertedPaths descs fs).Nodup ∧
      imgs.length = (imgConvertedPaths descs fs).length ∧
      ∀ d ∈ descs, d.dtype = some "output" → fsHas fs' (outImagePath d) = false) ∧
    (∀ (up : Option JVal) (files : List TxtFile),
      (∀ f ∈ files, f.removeOk = true) →
      (scanDirFiles up files).1 = (files.map (textEntriesOf up)).flatten ∧
      (∀ f ∈ files, (textEntriesOf up f).length ≤ 1) ∧
      (∀ f ∈ files, textEntriesOf up f ≠ [] → f ∉ (scanDirFiles up files).2)) := by
  constructor
  · intro descs fs imgs fs' h
    exact ⟨imgConvertedPaths_nodup descs fs,
      (processOutputImages_ok descs fs imgs fs' h).1,
      (processOutputImages_ok descs fs imgs fs' h).2.2⟩
  · intro up files hrm
    refine ⟨scanDirFiles_entries up files, fun f hf => textEntriesOf_le_one up f (hrm f hf), ?_⟩
    intro f hf hne
    rw [scanDirFiles_survivors]
    intro hmem
    have hflt := (List.mem_filter.mp hmem).2
    obtain ⟨hs, hrem⟩ := textEntriesOf_removed up f (hrm f hf) hne
    simp [hs, hrem] at hflt

/-- Witness for C4 at concrete harvest inputs. -/
theorem claim_C4_witness :
    ((imgConvertedPaths [c4wdesc] [c4wimg]).Nodup ∧
      (["b64data"] : List String).length = (imgConvertedPaths [c4wdesc] [c4wimg]).length ∧
      (∀ d ∈ [c4wdesc], d.dtype = some "output" →
        fsHas [] (outImagePath d) = false)) ∧
    ((scanDirFiles none [c4wfile]).1 = ([c4wfile].map (textEntriesOf none)).flatten ∧
      (∀ f ∈ [c4wfile], (textEntriesOf none f).length ≤ 1) ∧
      (∀ f ∈ [c4wfile], textEntriesOf none f ≠ [] → f ∉ (scanDirFiles none [c4wfile]).2)) :=
  ⟨claim_C4.1 [c4wdesc] [c4wimg] ["b64data"] [] (by rfl),
   claim_C4.2 none [c4wfile] (by decide)⟩

end ComfyWorker

